import Mathlib

/-!
Verification of the commit-authenticity heuristic engine of the EthDelhi
hackathon-audit agent.

The embedding below models, in Lean, the deterministic core of
`src/commits.py` (class `HackathonAnalyzer`, method `analyze_repository`)
and the fetch helpers of `src/github_agent/utils.py`.

Modelling conventions:
* Timestamps are totally ordered instants, modelled as integers
  (the Python code compares timezone-normalized datetimes).
* Commit lists are taken in the order the commit-list endpoint returns
  them (newest first); the Python code indexes the list with `[-1]` to
  reach the chronologically earliest commit, which is `List.getLast?`
  here.
* Money-free rationals stand in for Python floats; `round(x, 2)` is
  modelled as exact round-half-to-even at two decimals.
* Anomaly strings are abstracted to tags recording which rule produced
  the string, and verdict prose to a tag recording which branch built
  it; the claims under verification only concern which anomalies appear
  and in which order.
-/

/-- A fetched commit as used by the scorer: only the timestamp and the
diff-stat fields feed the heuristics (src/commits.py lines 211-230). -/
structure Commit where
  sha : String
  date : ℤ
  additions : ℕ
  deletions : ℕ
deriving DecidableEq

/-- One tag per anomaly string the analyzer can append.
The first four correspond to the four penalty rules
(src/commits.py lines 293-307), `massiveInitialDetected` to the
final-override string "Massive initial commit detected"
(line 364), and `noDevelopmentActivity` to the string
"No development activity during the hackathon period" that the
LLM prompt of src/github_agent/commits.py (lines 41-47) instructs the
model to emit; the deterministic scorer itself never produces it. -/
inductive AnomalyTag where
  | beforeWindow
  | afterWindow
  | massiveInitial
  | contributorImbalance
  | massiveInitialDetected
  | noDevelopmentActivity
deriving DecidableEq

/-- Which branch generated the verdict_summary prose
(src/commits.py lines 313-319 and the override at line 363). -/
inductive Verdict where
  | highRiskSummary
  | mediumRiskSummary
  | lowRiskSummary
  | massiveDumpMessage
deriving DecidableEq

/-- The fields of the output report that the claims talk about
(src/commits.py lines 321-356). -/
structure Report where
  trust_score : ℚ
  risk_level : String
  verdict : Verdict
  key_anomalies : List AnomalyTag
  contributor_map : List (String × ℚ)
deriving DecidableEq

/-- Round-half-to-even to an integer, the rounding of Python's built-in
round function (idealized over the rationals). -/
def roundHalfEven (q : ℚ) : ℤ :=
  if q - ⌊q⌋ < 1/2 then ⌊q⌋
  else if 1/2 < q - ⌊q⌋ then ⌊q⌋ + 1
  else if ⌊q⌋ % 2 = 0 then ⌊q⌋ else ⌊q⌋ + 1

/-- Python round(x, 2). -/
def roundTo2 (q : ℚ) : ℚ := (roundHalfEven (q * 100) : ℚ) / 100

/-- The single pass of src/commits.py lines 270-278: each commit goes to
exactly one of (before, during, after) by
if date < start / elif date > end / else. -/
def partitionCommits (hackStart hackEnd : ℤ) : List Commit → List Commit × List Commit × List Commit
  | [] => ([], [], [])
  | c :: cs =>
    let rest := partitionCommits hackStart hackEnd cs
    if c.date < hackStart then (c :: rest.1, rest.2.1, rest.2.2)
    else if hackEnd < c.date then (rest.1, rest.2.1, c :: rest.2.2)
    else (rest.1, c :: rest.2.1, rest.2.2)

/-- Sum of the per-contributor additions
(src/commits.py line 241: total_additions). -/
def totalAdditions (stats : List (String × ℕ)) : ℕ :=
  (stats.map Prod.snd).sum

/-- From src/commits.py lines 243-249: percentage of each contributor,
rounded to two decimals, zero when there are no additions at all. -/
def contributionPercentagesRaw (stats : List (String × ℕ)) : List (String × ℚ) :=
  stats.map fun p =>
    (p.1, roundTo2 (if 0 < totalAdditions stats then (p.2 : ℚ) / (totalAdditions stats : ℚ) * 100 else 0))

/-- Ordering used at src/commits.py line 251:
sort(key=percentage, reverse=True). -/
def pctDescOrder (x y : String × ℚ) : Prop := y.2 ≤ x.2

instance : DecidableRel pctDescOrder := fun x y => inferInstanceAs (Decidable (y.2 ≤ x.2))

/-- From src/commits.py lines 243-251: rounded percentages sorted descending.
Python's list.sort is stable; insertion sort with the reflexive
descending order is the corresponding stable sort. -/
def contributionPercentages (stats : List (String × ℕ)) : List (String × ℚ) :=
  List.insertionSort pctDescOrder (contributionPercentagesRaw stats)

/-- From src/commits.py lines 281-282: first_commit is during[-1] when the
during list is nonempty, and massive_initial asks additions > 5000 of it. -/
def firstWindowCommitMassive (during : List Commit) : Bool :=
  match during.getLast? with
  | some c => decide (5000 < c.additions)
  | none => false

/-- From src/commits.py lines 283-284: contribution_percentages[0] when
nonempty, else a default percentage of 0. -/
def topContributorPct (pcts : List (String × ℚ)) : ℚ :=
  ((pcts.head?).map Prod.snd).getD 0

/-- From src/commits.py lines 290-307: trust score starts at 1.0 and the four
rules run in textual order, each firing rule subtracting its penalty and
appending its anomaly. -/
def evalRules (before after : List Commit) (massiveInitial contributorImbalance : Bool) :
    ℚ × List AnomalyTag :=
  let s0 : ℚ × List AnomalyTag := (1, [])
  let s1 := if before = [] then s0 else (s0.1 - 1/2, s0.2 ++ [AnomalyTag.beforeWindow])
  let s2 := if after = [] then s1 else (s1.1 - 3/10, s1.2 ++ [AnomalyTag.afterWindow])
  let s3 := if massiveInitial then (s2.1 - 2/5, s2.2 ++ [AnomalyTag.massiveInitial]) else s2
  let s4 := if contributorImbalance then (s3.1 - 3/10, s3.2 ++ [AnomalyTag.contributorImbalance]) else s3
  s4

/-- From src/commits.py line 310: risk level thresholds. -/
def riskLevel (s : ℚ) : String :=
  if s < 2/5 then "High" else if s < 7/10 then "Medium" else "Low"

/-- Severity order on the three risk level strings, used to state that
lower trust never means lower risk. -/
def riskSeverity (risk : String) : ℕ :=
  if risk = "High" then 2 else if risk = "Medium" then 1 else 0

/-- From src/commits.py lines 358-364: after the report is assembled, when
the commit history is nonempty and its last-listed (chronologically
earliest) commit has more than 5000 additions, trust_score, risk_level
and the verdict are overwritten and one more anomaly is appended. -/
def applyMassiveDumpOverride (commits : List Commit) (base : Report) : Report :=
  match commits.getLast? with
  | some c =>
    if 5000 < c.additions then
      { base with
          trust_score := 3/10
          risk_level := "High"
          verdict := Verdict.massiveDumpMessage
          key_anomalies := base.key_anomalies ++ [AnomalyTag.massiveInitialDetected] }
    else base
  | none => base

/-- From src/commits.py lines 266-366: the deterministic part of
analyze_repository from the fetched commit list (API order, newest
first) and the per-contributor addition totals to the report fields the
claims mention.  The final block (lines 358-364) overrides the summary
when the earliest commit of the whole fetched history
(commit_analyses[-1]) has more than 5000 additions. -/
def analyzeReport (hackStart hackEnd : ℤ) (commits : List Commit) (stats : List (String × ℕ)) : Report :=
  let parts := partitionCommits hackStart hackEnd commits
  let pcts := contributionPercentages stats
  let massiveInitial := firstWindowCommitMassive parts.2.1
  let contributorImbalance : Bool := decide (90 < topContributorPct pcts)
  let evalRes := evalRules parts.1 parts.2.2 massiveInitial contributorImbalance
  let risk := riskLevel evalRes.1
  let verdict :=
    if risk = "High" then Verdict.highRiskSummary
    else if risk = "Medium" then Verdict.mediumRiskSummary
    else Verdict.lowRiskSummary
  let base : Report :=
    { trust_score := roundTo2 evalRes.1
      risk_level := risk
      verdict := verdict
      key_anomalies := evalRes.2
      contributor_map := pcts }
  applyMassiveDumpOverride commits base

/-- Errors raised by get_commit_history in src/github_agent/utils.py:
a 404 on the commit-list endpoint raises the dedicated ValueError
(line 63), any other non-200 the generic Exception (line 65). -/
inductive FetchError where
  | repoNotFound (owner repo : String)
  | apiError (status : ℕ)
deriving DecidableEq

/-- The message carried by each error of get_commit_history
(src/github_agent/utils.py lines 63 and 65). -/
def fetchErrorMessage : FetchError → String
  | FetchError.repoNotFound owner repo => "Repository " ++ owner ++ "/" ++ repo ++ " not found"
  | FetchError.apiError status => "GitHub API error: " ++ toString status

/-- From src/github_agent/utils.py lines 71-99: each commit of a page gets one
detail call; a non-200 detail response skips just that commit. -/
def enrichPage (detailApi : α → ℕ × β) (body : List α) : List β :=
  body.filterMap fun c =>
    let r := detailApi c
    if r.1 = 200 then some r.2 else none

/-- From src/github_agent/utils.py lines 45-103 (get_commit_history): request
pages starting at page 1 until an empty page comes back; on each page,
404 raises repoNotFound, any other non-200 raises the generic error,
otherwise the page body is enriched commit by commit.  listApi gives the
status and body of the list endpoint for a page number, detailApi the
status and payload of the detail endpoint for a commit.  The fuel
argument only serves termination: the Python loop runs until an empty
page, and every theorem below supplies enough fuel to reach one. -/
def getCommitHistory (owner repo : String) (listApi : ℕ → ℕ × List α)
    (detailApi : α → ℕ × β) : ℕ → ℕ → Except FetchError (List β)
  | 0, _ => Except.ok []
  | fuel + 1, page =>
    let resp := listApi page
    if resp.1 = 404 then Except.error (FetchError.repoNotFound owner repo)
    else if resp.1 ≠ 200 then Except.error (FetchError.apiError resp.1)
    else if resp.2.isEmpty then Except.ok []
    else
      (getCommitHistory owner repo listApi detailApi fuel (page + 1)).map
        fun rest => enrichPage detailApi resp.2 ++ rest

/-- The page size get_commit_history sends
(src/github_agent/utils.py line 51). -/
def perPageGetCommitHistory : ℕ := 20

/-- The commit-list page size the API allows at most, as recorded by the
repository itself (src/github_agent/utils.py lines 118 and 146:
per_page 100, "max allowed by GitHub"). -/
def githubMaxPerPage : ℕ := 100

/-- The enriched contents of pages start, start+1, ..., start+count-1:
what a run of get_commit_history that stops right after page
start+count collects. -/
def joinPages (listApi : ℕ → ℕ × List α) (detailApi : α → ℕ × β) (start count : ℕ) : List β :=
  ((List.range' start count).map fun p => enrichPage detailApi (listApi p).2).flatten

/-- The generic failure message of src/commits.py line 165. -/
def genericCommitsFetchMessage (status : ℕ) : String :=
  "Failed to fetch commits. Status: " ++ toString status

/-- From src/commits.py lines 164-165: the commit-list fetch of
analyze_repository turns every non-200 status, 404 included, into the
same generic error message. -/
def analyzeCommitsFetchMessage (status : ℕ) : Option String :=
  if status ≠ 200 then some (genericCommitsFetchMessage status) else none

/-- Test fixture: seven contributors with one addition each. -/
def sevenEqualContributors : List (String × ℕ) :=
  [("u1", 1), ("u2", 1), ("u3", 1), ("u4", 1), ("u5", 1), ("u6", 1), ("u7", 1)]

/-- Test fixture: a paged commit-list API with two nonempty pages. -/
def twoPageApi : ℕ → ℕ × List ℕ
  | 1 => (200, [10, 11])
  | 2 => (200, [12])
  | _ => (200, [])

/-- Test fixture: a detail API that answers 200 for every commit. -/
def okDetailApi : ℕ → ℕ × ℕ := fun c => (200, c)

/-! ## Auxiliary lemmas about the embedding -/

theorem roundHalfEven_intCast (n : ℤ) : roundHalfEven (n : ℚ) = n := by
  unfold roundHalfEven
  rw [Int.floor_intCast]
  norm_num

theorem roundTo2_eq_self_of_int (q : ℚ) (n : ℤ) (h : q * 100 = (n : ℚ)) : roundTo2 q = q := by
  unfold roundTo2
  rw [h, roundHalfEven_intCast, div_eq_iff (by norm_num : (100:ℚ) ≠ 0)]
  exact h.symm

theorem abs_roundHalfEven_sub_le (q : ℚ) : |(roundHalfEven q : ℚ) - q| ≤ 1/2 := by
  have h0 : (⌊q⌋ : ℚ) ≤ q := Int.floor_le q
  have h1 : q < ⌊q⌋ + 1 := Int.lt_floor_add_one q
  unfold roundHalfEven
  split_ifs <;> (rw [abs_le]; push_neg at *; constructor <;> push_cast <;> linarith)

theorem abs_roundTo2_sub_le (q : ℚ) : |roundTo2 q - q| ≤ 1/200 := by
  have h := abs_roundHalfEven_sub_le (q * 100)
  have h2 : roundTo2 q - q = ((roundHalfEven (q * 100) : ℚ) - q * 100) / 100 := by
    unfold roundTo2; ring
  rw [h2, abs_div, abs_of_nonneg (by norm_num : (0:ℚ) ≤ 100)]
  linarith

theorem evalRules_closedForm (before after : List Commit) (m i : Bool) :
    evalRules before after m i =
      (1 - (if before = [] then 0 else 1/2) - (if after = [] then 0 else 3/10)
         - (if m then 2/5 else 0) - (if i then 3/10 else 0),
       (if before = [] then [] else [AnomalyTag.beforeWindow]) ++
       (if after = [] then [] else [AnomalyTag.afterWindow]) ++
       (if m then [AnomalyTag.massiveInitial] else []) ++
       (if i then [AnomalyTag.contributorImbalance] else [])) := by
  by_cases hb : before = [] <;> by_cases ha : after = [] <;> cases m <;> cases i <;>
    simp [evalRules, hb, ha]

theorem partitionCommits_length (hackStart hackEnd : ℤ) (cs : List Commit) :
    (partitionCommits hackStart hackEnd cs).1.length
      + (partitionCommits hackStart hackEnd cs).2.1.length
      + (partitionCommits hackStart hackEnd cs).2.2.length = cs.length := by
  induction cs with
  | nil => rfl
  | cons c cs ih =>
    simp only [partitionCommits]
    split_ifs <;> simp only [List.length_cons] <;> omega

theorem partitionCommits_boundary_mem (hackStart hackEnd : ℤ) (hse : hackStart ≤ hackEnd)
    (cs : List Commit) (c : Commit) (hc : c ∈ cs) (hb : c.date = hackStart ∨ c.date = hackEnd) :
    c ∈ (partitionCommits hackStart hackEnd cs).2.1 := by
  induction cs with
  | nil => cases hc
  | cons d cs ih =>
    rcases List.mem_cons.mp hc with rfl | hmem
    · have h1 : ¬ c.date < hackStart := by rcases hb with h | h <;> omega
      have h2 : ¬ hackEnd < c.date := by rcases hb with h | h <;> omega
      simp only [partitionCommits, if_neg h1, if_neg h2]
      exact List.mem_cons_self _ _
    · simp only [partitionCommits]
      split_ifs <;> simp [ih hmem]

theorem applyMassiveDumpOverride_skip (commits : List Commit) (base : Report)
    (h : ∀ c, commits.getLast? = some c → ¬ 5000 < c.additions) :
    applyMassiveDumpOverride commits base = base := by
  unfold applyMassiveDumpOverride
  split
  · next c heq => rw [if_neg (h c heq)]
  · rfl

theorem applyMassiveDumpOverride_fire (commits : List Commit) (base : Report) (c : Commit)
    (hlast : commits.getLast? = some c) (hbig : 5000 < c.additions) :
    applyMassiveDumpOverride commits base =
      { base with
          trust_score := 3/10
          risk_level := "High"
          verdict := Verdict.massiveDumpMessage
          key_anomalies := base.key_anomalies ++ [AnomalyTag.massiveInitialDetected] } := by
  unfold applyMassiveDumpOverride
  rw [hlast]
  exact if_pos hbig

/-! ## Claims -/

/-- Claim C3: whenever the chronologically earliest commit of the whole
fetched history (the last element of the API-ordered list) has more
than 5000 additions, the override of src/commits.py lines 358-364
forces trust_score to the sentinel 0.3 and risk_level to High,
replaces the verdict with the massive-code-dump message, and a
massive-initial-commit anomaly is present — regardless of window,
contributor stats, or which penalty rules fired. -/
theorem massive_earliest_commit_override (hackStart hackEnd : ℤ) (commits : List Commit)
    (stats : List (String × ℕ)) (c : Commit)
    (hlast : commits.getLast? = some c) (hbig : 5000 < c.additions) :
    (analyzeReport hackStart hackEnd commits stats).trust_score = 3/10 ∧
    (analyzeReport hackStart hackEnd commits stats).risk_level = "High" ∧
    (analyzeReport hackStart hackEnd commits stats).verdict = Verdict.massiveDumpMessage ∧
    AnomalyTag.massiveInitialDetected ∈ (analyzeReport hackStart hackEnd commits stats).key_anomalies := by
  simp only [analyzeReport]
  rw [applyMassiveDumpOverride_fire commits _ c hlast hbig]
  simp

/-- Claim C4: with the earliest-commit override not firing, the report's
anomaly list is exactly the ordered filter of the four rules
(pre-window, post-window, massive first in-window commit, contributor
imbalance) and the trust score is 1.0 minus the penalties 0.5, 0.3,
0.4, 0.3 of the rules that fired. -/
theorem rule_table_order_and_penalties (hackStart hackEnd : ℤ) (commits : List Commit)
    (stats : List (String × ℕ))
    (hno : ∀ c, commits.getLast? = some c → c.additions ≤ 5000) :
    (analyzeReport hackStart hackEnd commits stats).key_anomalies =
      (if (partitionCommits hackStart hackEnd commits).1 = [] then [] else [AnomalyTag.beforeWindow]) ++
      (if (partitionCommits hackStart hackEnd commits).2.2 = [] then [] else [AnomalyTag.afterWindow]) ++
      (if firstWindowCommitMassive (partitionCommits hackStart hackEnd commits).2.1 then [AnomalyTag.massiveInitial] else []) ++
      (if 90 < topContributorPct (contributionPercentages stats) then [AnomalyTag.contributorImbalance] else []) ∧
    (analyzeReport hackStart hackEnd commits stats).trust_score =
      1 - (if (partitionCommits hackStart hackEnd commits).1 = [] then 0 else 1/2)
        - (if (partitionCommits hackStart hackEnd commits).2.2 = [] then 0 else 3/10)
        - (if firstWindowCommitMassive (partitionCommits hackStart hackEnd commits).2.1 then 2/5 else 0)
        - (if 90 < topContributorPct (contributionPercentages stats) then 3/10 else 0) := by
  have hscore : ∀ b a : Prop, ∀ hb : Decidable b, ∀ ha : Decidable a, ∀ m i : Bool,
      (1 - (if b then (0:ℚ) else 1/2) - (if a then 0 else 3/10)
         - (if m then 2/5 else 0) - (if i then 3/10 else 0)) * 100 =
      (((100 : ℤ) - (if b then 0 else 50) - (if a then 0 else 30)
         - (if m then 40 else 0) - (if i then 30 else 0) : ℤ) : ℚ) := by
    intro b a hb ha m i
    split_ifs <;> norm_num
  simp only [analyzeReport]
  rw [applyMassiveDumpOverride_skip _ _ (fun c hc => not_lt.mpr (hno c hc))]
  rw [evalRules_closedForm]
  simp only [decide_eq_true_eq]
  exact ⟨trivial, roundTo2_eq_self_of_int _ _ (hscore _ _ _ _ _ _)⟩

/-- Claim C5: the risk level is the pure threshold function of the trust
score (High below 0.4, Medium in [0.4, 0.7), Low from 0.7 up), and it
is monotone: a lower trust score never gets a less severe level. -/
theorem risk_level_thresholds_monotone (s1 s2 : ℚ) :
    (riskLevel s1 = "High" ↔ s1 < 2/5) ∧
    (riskLevel s1 = "Medium" ↔ 2/5 ≤ s1 ∧ s1 < 7/10) ∧
    (riskLevel s1 = "Low" ↔ 7/10 ≤ s1) ∧
    (s1 ≤ s2 → riskSeverity (riskLevel s2) ≤ riskSeverity (riskLevel s1)) := by
  refine ⟨?_, ?_, ?_, ?_⟩
  · unfold riskLevel
    split_ifs with h1 h2
    · exact iff_of_true rfl h1
    · exact iff_of_false (by decide) h1
    · exact iff_of_false (by decide) h1
  · unfold riskLevel
    split_ifs with h1 h2
    · exact iff_of_false (by decide) (fun hc => absurd h1 (not_lt.mpr hc.1))
    · exact iff_of_true rfl ⟨not_lt.mp h1, h2⟩
    · exact iff_of_false (by decide) (fun hc => absurd hc.2 h2)
  · unfold riskLevel
    split_ifs with h1 h2
    · exact iff_of_false (by decide) (by intro hc; linarith)
    · exact iff_of_false (by decide) (by intro hc; linarith)
    · exact iff_of_true rfl (not_lt.mp h2)
  · intro hle
    unfold riskLevel
    split_ifs <;> first | decide | linarith

/-- Claim C6: the partitioner sends every commit to exactly one of the three
sub-lists, so the lengths add up to the input length; the window
boundaries are inclusive: a commit dated exactly at the window start or
end lands in the during list (given start before or at end, which the
analyzer's constructor guarantees). -/
theorem partition_exhaustive_inclusive (hackStart hackEnd : ℤ) (cs : List Commit)
    (hse : hackStart ≤ hackEnd) :
    (partitionCommits hackStart hackEnd cs).1.length
      + (partitionCommits hackStart hackEnd cs).2.1.length
      + (partitionCommits hackStart hackEnd cs).2.2.length = cs.length ∧
    ∀ c ∈ cs, (c.date = hackStart ∨ c.date = hackEnd) →
      c ∈ (partitionCommits hackStart hackEnd cs).2.1 :=
  ⟨partitionCommits_length hackStart hackEnd cs,
   fun c hc hb => partitionCommits_boundary_mem hackStart hackEnd hse cs c hc hb⟩

/-- Claim C10: with an empty contributor-statistics map, analysis still
produces a full report: the contributor map is empty, the top
contributor defaults to percentage 0, and the contributor-imbalance
anomaly can never appear in the report. -/
theorem empty_contributor_stats_safe (hackStart hackEnd : ℤ) (commits : List Commit) :
    (analyzeReport hackStart hackEnd commits []).contributor_map = [] ∧
    topContributorPct (contributionPercentages []) = 0 ∧
    AnomalyTag.contributorImbalance ∉ (analyzeReport hackStart hackEnd commits []).key_anomalies := by
  have hpcts : contributionPercentages [] = [] := rfl
  have htop : topContributorPct (contributionPercentages []) = 0 := rfl
  have hfalse : decide (90 < topContributorPct (contributionPercentages [])) = false := by
    rw [decide_eq_false_iff_not, htop]
    norm_num
  refine ⟨?_, htop, ?_⟩
  · simp only [analyzeReport]
    unfold applyMassiveDumpOverride
    split
    · next c heq => split_ifs <;> simp [hpcts]
    · simp [hpcts]
  · simp only [analyzeReport]
    rw [hfalse]
    have hnotin : AnomalyTag.contributorImbalance ∉
        (evalRules (partitionCommits hackStart hackEnd commits).1
          (partitionCommits hackStart hackEnd commits).2.2
          (firstWindowCommitMassive (partitionCommits hackStart hackEnd commits).2.1) false).2 := by
      rw [evalRules_closedForm]
      split_ifs <;> simp_all
    unfold applyMassiveDumpOverride
    split
    · next c heq => split_ifs <;> simp [hnotin]
    · simp [hnotin]

/-! ## Concrete evaluation helpers -/

theorem analyzeReport_base (hackStart hackEnd : ℤ) (commits : List Commit)
    (stats : List (String × ℕ))
    (hno : ∀ c, commits.getLast? = some c → ¬ 5000 < c.additions) :
    analyzeReport hackStart hackEnd commits stats =
      { trust_score := roundTo2 (evalRules (partitionCommits hackStart hackEnd commits).1
          (partitionCommits hackStart hackEnd commits).2.2
          (firstWindowCommitMassive (partitionCommits hackStart hackEnd commits).2.1)
          (decide (90 < topContributorPct (contributionPercentages stats)))).1
        risk_level := riskLevel (evalRules (partitionCommits hackStart hackEnd commits).1
          (partitionCommits hackStart hackEnd commits).2.2
          (firstWindowCommitMassive (partitionCommits hackStart hackEnd commits).2.1)
          (decide (90 < topContributorPct (contributionPercentages stats)))).1
        verdict :=
          if riskLevel (evalRules (partitionCommits hackStart hackEnd commits).1
              (partitionCommits hackStart hackEnd commits).2.2
              (firstWindowCommitMassive (partitionCommits hackStart hackEnd commits).2.1)
              (decide (90 < topContributorPct (contributionPercentages stats)))).1 = "High" then
            Verdict.highRiskSummary
          else if riskLevel (evalRules (partitionCommits hackStart hackEnd commits).1
              (partitionCommits hackStart hackEnd commits).2.2
              (firstWindowCommitMassive (partitionCommits hackStart hackEnd commits).2.1)
              (decide (90 < topContributorPct (contributionPercentages stats)))).1 = "Medium" then
            Verdict.mediumRiskSummary
          else Verdict.lowRiskSummary
        key_anomalies := (evalRules (partitionCommits hackStart hackEnd commits).1
          (partitionCommits hackStart hackEnd commits).2.2
          (firstWindowCommitMassive (partitionCommits hackStart hackEnd commits).2.1)
          (decide (90 < topContributorPct (contributionPercentages stats)))).2
        contributor_map := contributionPercentages stats } := by
  simp only [analyzeReport]
  rw [applyMassiveDumpOverride_skip _ _ hno]

theorem pcts_two_halves : contributionPercentages [("x", 1), ("y", 1)] = [("x", 50), ("y", 50)] := by
  have h50 : roundTo2 (50 : ℚ) = 50 := roundTo2_eq_self_of_int 50 5000 (by norm_num)
  unfold contributionPercentages contributionPercentagesRaw totalAdditions
  norm_num
  rw [h50]
  simp [List.insertionSort, List.orderedInsert, pctDescOrder]

theorem pcts_alice_bob :
    contributionPercentages [("alice", 91), ("bob", 9)] = [("alice", 91), ("bob", 9)] := by
  have h91 : roundTo2 (91 : ℚ) = 91 := roundTo2_eq_self_of_int 91 9100 (by norm_num)
  have h9 : roundTo2 (9 : ℚ) = 9 := roundTo2_eq_self_of_int 9 900 (by norm_num)
  unfold contributionPercentages contributionPercentagesRaw totalAdditions
  norm_num
  rw [h91, h9]
  simp only [List.insertionSort, List.orderedInsert, pctDescOrder]
  norm_num

theorem pcts_solo : contributionPercentages [("solo", 6000)] = [("solo", 100)] := by
  have h100 : roundTo2 (100 : ℚ) = 100 := roundTo2_eq_self_of_int 100 10000 (by norm_num)
  unfold contributionPercentages contributionPercentagesRaw totalAdditions
  norm_num
  rw [h100]

/-- Claim C1: the deterministic scorer of src/commits.py never clamps the
trust score.  On a history with commits before, inside and after the
window, a massive first in-window commit and a dominant contributor,
all four rules fire and the reported trust_score is -0.5, outside the
documented domain [0.0, 1.0].  (The sibling path call_llm_for_analysis,
lines 385-395, does clamp; analyze_repository does not.) -/
theorem trust_score_not_clamped_below_zero :
    (analyzeReport 10 20
        [⟨"a1", 25, 100, 0⟩, ⟨"a2", 15, 6000, 0⟩, ⟨"a3", 5, 100, 0⟩]
        [("alice", 91), ("bob", 9)]).trust_score = -(1/2) ∧
    ¬ 0 ≤ (analyzeReport 10 20
        [⟨"a1", 25, 100, 0⟩, ⟨"a2", 15, 6000, 0⟩, ⟨"a3", 5, 100, 0⟩]
        [("alice", 91), ("bob", 9)]).trust_score := by
  have hno : ∀ c, ([⟨"a1", 25, 100, 0⟩, ⟨"a2", 15, 6000, 0⟩, ⟨"a3", 5, 100, 0⟩] : List Commit).getLast? = some c →
      ¬ 5000 < c.additions := by
    intro c hc
    rw [show ([⟨"a1", 25, 100, 0⟩, ⟨"a2", 15, 6000, 0⟩, ⟨"a3", 5, 100, 0⟩] : List Commit).getLast? =
        some ⟨"a3", 5, 100, 0⟩ from rfl] at hc
    cases hc
    decide
  rw [analyzeReport_base _ _ _ _ hno]
  have hpart : partitionCommits 10 20 [⟨"a1", 25, 100, 0⟩, ⟨"a2", 15, 6000, 0⟩, ⟨"a3", 5, 100, 0⟩] =
      ([⟨"a3", 5, 100, 0⟩], [⟨"a2", 15, 6000, 0⟩], [⟨"a1", 25, 100, 0⟩]) := by decide
  have himb : decide (90 < topContributorPct (contributionPercentages [("alice", 91), ("bob", 9)])) = true := by
    rw [pcts_alice_bob]
    simp only [decide_eq_true_eq]
    norm_num [topContributorPct]
  rw [hpart, himb]
  have hm : firstWindowCommitMassive [⟨"a2", 15, 6000, 0⟩] = true := by decide
  rw [hm]
  have heval : evalRules [⟨"a3", 5, 100, 0⟩] [⟨"a1", 25, 100, 0⟩] true true =
      (-(1/2), [AnomalyTag.beforeWindow, AnomalyTag.afterWindow,
                AnomalyTag.massiveInitial, AnomalyTag.contributorImbalance]) := by
    rw [evalRules_closedForm]
    norm_num
  rw [heval]
  have hr : roundTo2 (-(1/2)) = -(1/2) := roundTo2_eq_self_of_int _ (-50) (by norm_num)
  constructor
  · show roundTo2 (-(1/2)) = -(1/2)
    exact hr
  · show ¬ 0 ≤ roundTo2 (-(1/2))
    rw [hr]
    norm_num

/-- Claim C2: on a run whose only commit predates the window (zero in-window
commits, nonempty history), the deterministic scorer does not force the
report to trust 0.0 / risk High with a no-development-activity anomaly
first: it just applies the pre-window rule, giving trust 0.5, risk
Medium, and a pre-window anomaly as the only entry.  The distinguished
empty-window condition exists only as an instruction inside the LLM
prompt of src/github_agent/commits.py, not in the scorer. -/
theorem empty_window_not_distinguished :
    (analyzeReport 10 20 [⟨"p1", 5, 100, 0⟩] [("x", 1), ("y", 1)]).trust_score = 1/2 ∧
    (analyzeReport 10 20 [⟨"p1", 5, 100, 0⟩] [("x", 1), ("y", 1)]).risk_level = "Medium" ∧
    (analyzeReport 10 20 [⟨"p1", 5, 100, 0⟩] [("x", 1), ("y", 1)]).key_anomalies = [AnomalyTag.beforeWindow] ∧
    (analyzeReport 10 20 [⟨"p1", 5, 100, 0⟩] [("x", 1), ("y", 1)]).trust_score ≠ 0 ∧
    (analyzeReport 10 20 [⟨"p1", 5, 100, 0⟩] [("x", 1), ("y", 1)]).risk_level ≠ "High" ∧
    (analyzeReport 10 20 [⟨"p1", 5, 100, 0⟩] [("x", 1), ("y", 1)]).key_anomalies.head? ≠
      some AnomalyTag.noDevelopmentActivity := by
  have hno : ∀ c, ([⟨"p1", 5, 100, 0⟩] : List Commit).getLast? = some c → ¬ 5000 < c.additions := by
    intro c hc
    rw [show ([⟨"p1", 5, 100, 0⟩] : List Commit).getLast? = some ⟨"p1", 5, 100, 0⟩ from rfl] at hc
    cases hc
    decide
  rw [analyzeReport_base _ _ _ _ hno]
  have hpart : partitionCommits 10 20 [⟨"p1", 5, 100, 0⟩] = ([⟨"p1", 5, 100, 0⟩], [], []) := by decide
  have himb : decide (90 < topContributorPct (contributionPercentages [("x", 1), ("y", 1)])) = false := by
    rw [pcts_two_halves]
    simp only [decide_eq_false_iff_not]
    norm_num [topContributorPct]
  rw [hpart, himb]
  have hm : firstWindowCommitMassive [] = false := rfl
  rw [hm]
  have heval : evalRules [⟨"p1", 5, 100, 0⟩] [] false false = (1/2, [AnomalyTag.beforeWindow]) := by
    rw [evalRules_closedForm]
    norm_num
  rw [heval]
  have hr : roundTo2 (1/2 : ℚ) = 1/2 := roundTo2_eq_self_of_int _ 50 (by norm_num)
  have hrisk : riskLevel (1/2 : ℚ) = "Medium" := by
    unfold riskLevel
    rw [if_neg (by norm_num), if_pos (by norm_num)]
  refine ⟨hr, ?_, rfl, ?_, ?_, ?_⟩
  · show riskLevel (1/2) = "Medium"
    exact hrisk
  · show roundTo2 (1/2) ≠ 0
    rw [hr]
    norm_num
  · show riskLevel (1/2) ≠ "High"
    rw [hrisk]
    decide
  · show ([AnomalyTag.beforeWindow] : List AnomalyTag).head? ≠ some AnomalyTag.noDevelopmentActivity
    decide

theorem massive_earliest_commit_override_witness :
    (analyzeReport 10 20 [⟨"c1", 15, 6000, 0⟩] [("solo", 6000)]).trust_score = 3/10 ∧
    (analyzeReport 10 20 [⟨"c1", 15, 6000, 0⟩] [("solo", 6000)]).risk_level = "High" ∧
    (analyzeReport 10 20 [⟨"c1", 15, 6000, 0⟩] [("solo", 6000)]).verdict = Verdict.massiveDumpMessage ∧
    AnomalyTag.massiveInitialDetected ∈
      (analyzeReport 10 20 [⟨"c1", 15, 6000, 0⟩] [("solo", 6000)]).key_anomalies :=
  massive_earliest_commit_override 10 20 _ _ ⟨"c1", 15, 6000, 0⟩ rfl (by decide)

theorem risk_level_thresholds_monotone_witness :
    riskSeverity (riskLevel 1) ≤ riskSeverity (riskLevel 0) :=
  (risk_level_thresholds_monotone 0 1).2.2.2 zero_le_one

theorem partition_exhaustive_inclusive_witness :
    (partitionCommits 0 10 [⟨"b1", 0, 1, 0⟩, ⟨"b2", 10, 2, 0⟩, ⟨"b3", 4, 3, 0⟩]).1.length
      + (partitionCommits 0 10 [⟨"b1", 0, 1, 0⟩, ⟨"b2", 10, 2, 0⟩, ⟨"b3", 4, 3, 0⟩]).2.1.length
      + (partitionCommits 0 10 [⟨"b1", 0, 1, 0⟩, ⟨"b2", 10, 2, 0⟩, ⟨"b3", 4, 3, 0⟩]).2.2.length = 3 ∧
    (⟨"b1", 0, 1, 0⟩ : Commit) ∈
      (partitionCommits 0 10 [⟨"b1", 0, 1, 0⟩, ⟨"b2", 10, 2, 0⟩, ⟨"b3", 4, 3, 0⟩]).2.1 := by
  have h := partition_exhaustive_inclusive 0 10
    [⟨"b1", 0, 1, 0⟩, ⟨"b2", 10, 2, 0⟩, ⟨"b3", 4, 3, 0⟩] (by decide)
  exact ⟨h.1, h.2 ⟨"b1", 0, 1, 0⟩ (by decide) (Or.inl rfl)⟩

theorem rule_table_order_and_penalties_witness :
    (analyzeReport 10 20 [⟨"w1", 25, 10, 0⟩, ⟨"w2", 15, 10, 0⟩, ⟨"w3", 5, 10, 0⟩]
        [("x", 1), ("y", 1)]).key_anomalies = [AnomalyTag.beforeWindow, AnomalyTag.afterWindow] ∧
    (analyzeReport 10 20 [⟨"w1", 25, 10, 0⟩, ⟨"w2", 15, 10, 0⟩, ⟨"w3", 5, 10, 0⟩]
        [("x", 1), ("y", 1)]).trust_score = 1/5 := by
  have h := rule_table_order_and_penalties 10 20
    [⟨"w1", 25, 10, 0⟩, ⟨"w2", 15, 10, 0⟩, ⟨"w3", 5, 10, 0⟩] [("x", 1), ("y", 1)]
    (by
      intro c hc
      rw [show ([⟨"w1", 25, 10, 0⟩, ⟨"w2", 15, 10, 0⟩, ⟨"w3", 5, 10, 0⟩] : List Commit).getLast? =
          some ⟨"w3", 5, 10, 0⟩ from rfl] at hc
      cases hc
      decide)
  have hpart : partitionCommits 10 20 [⟨"w1", 25, 10, 0⟩, ⟨"w2", 15, 10, 0⟩, ⟨"w3", 5, 10, 0⟩] =
      ([⟨"w3", 5, 10, 0⟩], [⟨"w2", 15, 10, 0⟩], [⟨"w1", 25, 10, 0⟩]) := by decide
  have hm : firstWindowCommitMassive [⟨"w2", 15, 10, 0⟩] = false := by decide
  have htop : topContributorPct (contributionPercentages [("x", 1), ("y", 1)]) = 50 := by
    rw [pcts_two_halves]
    rfl
  rw [hpart, hm, htop] at h
  norm_num at h
  exact h

/-! ## Fetcher lemmas -/

theorem getCommitHistory_ok_join (owner repo : String) (listApi : ℕ → ℕ × List α)
    (detailApi : α → ℕ × β) (N : ℕ)
    (hstat : ∀ p, (listApi p).1 = 200)
    (hempty : ∀ p, N ≤ p → (listApi p).2 = [])
    (hnon : ∀ p, 1 ≤ p → p < N → (listApi p).2 ≠ []) :
    ∀ fuel start, 1 ≤ start → start ≤ N → N + 1 ≤ fuel + start →
      getCommitHistory owner repo listApi detailApi fuel start =
        Except.ok (joinPages listApi detailApi start (N - start)) := by
  intro fuel
  induction fuel with
  | zero => intro start h1 h2 h3; omega
  | succ fuel ih =>
    intro start h1 h2 h3
    simp only [getCommitHistory]
    rw [hstat start]
    norm_num
    by_cases hSN : start = N
    · subst hSN
      have hEmp : (listApi start).2.isEmpty = true := by
        rw [hempty start le_rfl]
        rfl
      rw [if_pos hEmp, Nat.sub_self]
      rfl
    · have hlt : start < N := lt_of_le_of_ne h2 hSN
      have hne : (listApi start).2 ≠ [] := hnon start h1 hlt
      have hNEmp : ¬ (listApi start).2.isEmpty = true := by
        simpa using hne
      rw [if_neg hNEmp, ih (start + 1) (by omega) (by omega) (by omega)]
      have hcount : N - start = (N - (start + 1)) + 1 := by omega
      simp only [Except.map]
      unfold joinPages
      rw [hcount, List.range'_succ]
      simp

/-- Claim C7 (amended): get_commit_history of src/github_agent/utils.py
paginates with the fixed page size 20 — not the API's maximum of 100 —
and collects the complete commit list reachable by successive pages
until the first empty page, enriching each commit through its detail
call (a commit whose detail call fails is the only one dropped; with
every call succeeding the result is exactly the concatenation of all
pages). -/
theorem pagination_complete_with_page_size_20 :
    perPageGetCommitHistory = 20 ∧
    ∀ (owner repo : String) (listApi : ℕ → ℕ × List ℕ) (detailApi : ℕ → ℕ × ℕ) (N fuel : ℕ),
      (∀ p, (listApi p).1 = 200) →
      (∀ p, N ≤ p → (listApi p).2 = []) →
      (∀ p, 1 ≤ p → p < N → (listApi p).2 ≠ []) →
      1 ≤ N → N ≤ fuel →
      getCommitHistory owner repo listApi detailApi fuel 1 =
        Except.ok (joinPages listApi detailApi 1 (N - 1)) := by
  refine ⟨rfl, ?_⟩
  intro owner repo listApi detailApi N fuel hstat hempty hnon hN hfuel
  exact getCommitHistory_ok_join owner repo listApi detailApi N hstat hempty hnon
    fuel 1 le_rfl hN (by omega)

/-- Claim C7 counterexample: the page size get_commit_history actually sends
(utils.py line 51) is 20, not the API's maximum page size of 100 that
the same file uses elsewhere and the claim asserts. -/
theorem page_size_not_api_maximum : perPageGetCommitHistory ≠ githubMaxPerPage := by
  decide

theorem pagination_complete_with_page_size_20_witness :
    getCommitHistory "o" "r" twoPageApi okDetailApi 3 1 = Except.ok [10, 11, 12] := by
  have h := pagination_complete_with_page_size_20.2 "o" "r" twoPageApi okDetailApi 3 3
    (by intro p; rcases p with _ | _ | _ | p <;> rfl)
    (by intro p hp; rcases p with _ | _ | _ | p <;> first | omega | rfl)
    (by intro p h1 h2; rcases p with _ | _ | _ | p <;> first | omega | decide)
    (by decide) le_rfl
  rw [h]
  rfl

/-- Claim C8 (amended): in get_commit_history (src/github_agent/utils.py), a
404 on the commit-list request raises the dedicated repository-not-found
error and any other non-200 raises the generic API error — two distinct
errors — while a non-200 on a per-commit detail call only drops that
one commit from the enriched page and, with the list requests healthy,
the whole run still returns a result.  The top-level analyzer of
src/commits.py, in contrast, maps every non-200 status of its
commit-list request, 404 included, to the one generic failure
message. -/
theorem fetch_error_taxonomy :
    (∀ (owner repo : String) (listApi : ℕ → ℕ × List ℕ) (detailApi : ℕ → ℕ × ℕ) (fuel page : ℕ),
        (listApi page).1 = 404 →
        getCommitHistory owner repo listApi detailApi (fuel + 1) page =
          Except.error (FetchError.repoNotFound owner repo)) ∧
    (∀ (owner repo : String) (listApi : ℕ → ℕ × List ℕ) (detailApi : ℕ → ℕ × ℕ) (fuel page : ℕ),
        (listApi page).1 ≠ 200 → (listApi page).1 ≠ 404 →
        getCommitHistory owner repo listApi detailApi (fuel + 1) page =
          Except.error (FetchError.apiError (listApi page).1)) ∧
    (∀ (owner repo : String) (status : ℕ),
        FetchError.repoNotFound owner repo ≠ FetchError.apiError status) ∧
    (∀ (detailApi : ℕ → ℕ × ℕ) (c : ℕ) (l1 l2 : List ℕ),
        (detailApi c).1 ≠ 200 →
        enrichPage detailApi (l1 ++ c :: l2) =
          enrichPage detailApi l1 ++ enrichPage detailApi l2) ∧
    (∀ (owner repo : String) (listApi : ℕ → ℕ × List ℕ) (detailApi : ℕ → ℕ × ℕ) (N fuel : ℕ),
        (∀ p, (listApi p).1 = 200) →
        (∀ p, N ≤ p → (listApi p).2 = []) →
        (∀ p, 1 ≤ p → p < N → (listApi p).2 ≠ []) →
        1 ≤ N → N ≤ fuel →
        getCommitHistory owner repo listApi detailApi fuel 1 =
          Except.ok (joinPages listApi detailApi 1 (N - 1))) ∧
    (∀ status, status ≠ 200 →
        analyzeCommitsFetchMessage status = some (genericCommitsFetchMessage status)) := by
  refine ⟨?_, ?_, ?_, ?_, ?_, ?_⟩
  · intro owner repo listApi detailApi fuel page h404
    simp [getCommitHistory, h404]
  · intro owner repo listApi detailApi fuel page h200 h404
    simp [getCommitHistory, h200, h404]
  · intro owner repo status h
    exact FetchError.noConfusion h
  · intro detailApi c l1 l2 hdet
    unfold enrichPage
    rw [List.filterMap_append]
    simp [hdet]
  · intro owner repo listApi detailApi N fuel hstat hempty hnon hN hfuel
    exact getCommitHistory_ok_join owner repo listApi detailApi N hstat hempty hnon
      fuel 1 le_rfl hN (by omega)
  · intro status hs
    unfold analyzeCommitsFetchMessage
    rw [if_pos hs]

/-- Claim C8 counterexample: in analyze_repository (src/commits.py lines
164-165) a 404 on the commit-list request yields exactly the generic
failure message used for every other non-200 status — not a dedicated
repository-not-found message like the one of utils.py. -/
theorem analyzer_404_message_generic :
    analyzeCommitsFetchMessage 404 = some (genericCommitsFetchMessage 404) ∧
    genericCommitsFetchMessage 404 = "Failed to fetch commits. Status: 404" ∧
    genericCommitsFetchMessage 404 ≠ fetchErrorMessage (FetchError.repoNotFound "owner" "repo") := by
  refine ⟨rfl, rfl, ?_⟩
  decide

theorem fetch_error_taxonomy_witness :
    getCommitHistory "o" "r" (fun _ => (404, ([] : List ℕ))) okDetailApi 1 1 =
      Except.error (FetchError.repoNotFound "o" "r") ∧
    getCommitHistory "o" "r" (fun _ => (500, ([] : List ℕ))) okDetailApi 1 1 =
      Except.error (FetchError.apiError 500) ∧
    enrichPage (fun c => (if c = 11 then 500 else 200, c)) ([10] ++ 11 :: [12]) =
      enrichPage (fun c => (if c = 11 then 500 else 200, c)) [10] ++
        enrichPage (fun c => (if c = 11 then 500 else 200, c)) [12] ∧
    getCommitHistory "o" "r" twoPageApi (fun c => (if c = 11 then 500 else 200, c)) 3 1 =
      Except.ok [10, 12] := by
  refine ⟨fetch_error_taxonomy.1 "o" "r" _ okDetailApi 0 1 rfl, ?_, ?_, ?_⟩
  · exact fetch_error_taxonomy.2.1 "o" "r" _ okDetailApi 0 1 (by decide) (by decide)
  · exact fetch_error_taxonomy.2.2.2.1 _ 11 [10] [12] (by decide)
  · have h := fetch_error_taxonomy.2.2.2.2.1 "o" "r" twoPageApi
      (fun c => (if c = 11 then 500 else 200, c)) 3 3
      (by intro p; rcases p with _ | _ | _ | p <;> rfl)
      (by intro p hp; rcases p with _ | _ | _ | p <;> first | omega | rfl)
      (by intro p h1 h2; rcases p with _ | _ | _ | p <;> first | omega | decide)
      (by decide) le_rfl
    rw [h]
    rfl

/-! ## Contributor percentage sums -/

theorem sum_map_roundTo2_err (l : List ℚ) :
    |(l.map roundTo2).sum - l.sum| ≤ l.length * (1/200) := by
  induction l with
  | nil => simp
  | cons x l ih =>
    simp only [List.map_cons, List.sum_cons, List.length_cons]
    have h1 := abs_roundTo2_sub_le x
    calc |roundTo2 x + (l.map roundTo2).sum - (x + l.sum)|
        = |(roundTo2 x - x) + ((l.map roundTo2).sum - l.sum)| := by ring_nf
      _ ≤ |roundTo2 x - x| + |(l.map roundTo2).sum - l.sum| := abs_add _ _
      _ ≤ 1/200 + l.length * (1/200) := add_le_add h1 ih
      _ = (l.length + 1 : ℕ) * (1/200) := by push_cast; ring

theorem contributionPercentages_sum_eq_raw (stats : List (String × ℕ)) :
    ((contributionPercentages stats).map Prod.snd).sum =
      ((contributionPercentagesRaw stats).map Prod.snd).sum :=
  ((List.perm_insertionSort pctDescOrder (contributionPercentagesRaw stats)).map Prod.snd).sum_eq

theorem contributionPercentagesRaw_map_snd (stats : List (String × ℕ)) :
    (contributionPercentagesRaw stats).map Prod.snd =
      (stats.map fun p =>
        if 0 < totalAdditions stats then (p.2 : ℚ) / (totalAdditions stats : ℚ) * 100 else 0).map
        roundTo2 := by
  unfold contributionPercentagesRaw
  rw [List.map_map, List.map_map]
  rfl

theorem exact_pct_sum (stats : List (String × ℕ)) (hpos : 0 < totalAdditions stats) :
    (stats.map fun p => (p.2 : ℚ) / (totalAdditions stats : ℚ) * 100).sum = 100 := by
  have hT : ((totalAdditions stats : ℚ)) ≠ 0 :=
    ne_of_gt (by exact_mod_cast hpos)
  have hcast : ((totalAdditions stats : ℕ) : ℚ) = (stats.map fun p => ((p.2 : ℚ))).sum := by
    unfold totalAdditions
    rw [Nat.cast_list_sum, List.map_map]
    rfl
  have hpt : (stats.map fun p => (p.2 : ℚ) / (totalAdditions stats : ℚ) * 100) =
      stats.map fun p => (p.2 : ℚ) * (100 / (totalAdditions stats : ℚ)) := by
    apply List.map_congr_left
    intro p _
    ring
  rw [hpt, List.sum_map_mul_right, ← hcast]
  field_simp

/-- Claim C9 (amended): when the total additions are positive, the rounded,
sorted percentages sum to 100 up to the accumulated rounding error,
at most 0.005 per contributor (n * 1/200 for n contributors); when the
total is zero every percentage is 0 and the sum is 0. -/
theorem percentages_sum_within_rounding (stats : List (String × ℕ)) :
    (0 < totalAdditions stats →
      |((contributionPercentages stats).map Prod.snd).sum - 100| ≤ (stats.length : ℚ) * (1/200)) ∧
    (totalAdditions stats = 0 →
      ((contributionPercentages stats).map Prod.snd).sum = 0 ∧
      ∀ e ∈ contributionPercentages stats, e.2 = 0) := by
  constructor
  · intro hpos
    rw [contributionPercentages_sum_eq_raw, contributionPercentagesRaw_map_snd]
    have hif : (stats.map fun p =>
        if 0 < totalAdditions stats then (p.2 : ℚ) / (totalAdditions stats : ℚ) * 100 else 0) =
        stats.map fun p => (p.2 : ℚ) / (totalAdditions stats : ℚ) * 100 := by
      simp [hpos]
    rw [hif]
    have herr := sum_map_roundTo2_err (stats.map fun p => (p.2 : ℚ) / (totalAdditions stats : ℚ) * 100)
    rw [exact_pct_sum stats hpos, List.length_map] at herr
    exact herr
  · intro h0
    have hall : ∀ e ∈ contributionPercentages stats, e.2 = 0 := by
      intro e he
      have he' : e ∈ contributionPercentagesRaw stats :=
        (List.perm_insertionSort pctDescOrder (contributionPercentagesRaw stats)).mem_iff.mp he
      unfold contributionPercentagesRaw at he'
      rcases List.mem_map.mp he' with ⟨p, hp, rfl⟩
      simp only [h0]
      norm_num
      exact roundTo2_eq_self_of_int 0 0 (by norm_num)
    refine ⟨?_, hall⟩
    apply List.sum_eq_zero
    intro x hx
    rcases List.mem_map.mp hx with ⟨e, he, rfl⟩
    exact hall e he

theorem percentages_sum_within_rounding_witness :
    |((contributionPercentages [("x", 1), ("y", 1)]).map Prod.snd).sum - 100| ≤ 2 * (1/200) := by
  have h := (percentages_sum_within_rounding [("x", 1), ("y", 1)]).1 (by decide)
  simpa using h

/-- Claim C9 counterexample: with seven contributors of one addition each,
every rounded percentage is 14.29 and the sum is 100.03 — off from 100
by 0.03, more than the claimed tolerance of 0.01. -/
theorem seven_contributors_sum_exceeds_tolerance :
    0 < totalAdditions sevenEqualContributors ∧
    ((contributionPercentages sevenEqualContributors).map Prod.snd).sum = 10003/100 ∧
    ¬ |((contributionPercentages sevenEqualContributors).map Prod.snd).sum - 100| ≤ 1/100 := by
  have hfloor : ⌊(10000/7 : ℚ)⌋ = 1428 := by
    rw [Int.floor_eq_iff]
    constructor <;> norm_num
  have h7 : roundTo2 (100/7 : ℚ) = 1429/100 := by
    unfold roundTo2 roundHalfEven
    rw [show ((100:ℚ)/7 * 100) = 10000/7 by norm_num, hfloor]
    rw [if_neg (by norm_num), if_pos (by norm_num)]
    norm_num
  have hsum : ((contributionPercentages sevenEqualContributors).map Prod.snd).sum = 10003/100 := by
    rw [contributionPercentages_sum_eq_raw, contributionPercentagesRaw_map_snd]
    norm_num [sevenEqualContributors, totalAdditions]
    rw [h7]
    norm_num
  refine ⟨by decide, hsum, ?_⟩
  rw [hsum]
  rw [show (10003/100 : ℚ) - 100 = 3/100 by norm_num, abs_of_nonneg (by norm_num)]
  norm_num
